import Mathlib

/-!
Shallow embedding of the standings pipeline of `2025_christmas.py`
(AOE2 Standing Ovations League 2025) together with a verification of the
specification's claims about it.

The embedding models:
* the fixed roster `PLAYERS` and fixture list `MATCHES`;
* the persisted result mapping as a partial map from match-id strings to
  entries with three optional game-winner slots (a missing entry models a
  match id absent from the JSON mapping, a `none` field models a missing
  slot key);
* `compute_match_stats`, `compute_player_aggregate`,
  `compute_direct_comparison_helpers`, `compute_standings` and
  `scores_to_game_winners` as pure functions, with Python dicts keyed by
  player rendered as total functions `String → _` updated pointwise, and
  Python's stable `list.sort` rendered as `List.mergeSort` with the
  corresponding comparator (ascending for `sort(key=...)`, reversed for
  `reverse=True`).
-/

/-- One stored entry of the results mapping: the three per-game winner
slots `g1`, `g2`, `g3`.  A `none` field corresponds to the slot key being
absent from the stored JSON object (Python's `entry.get("g", "")`
defaults it to the empty string). -/
structure Entry where
  g1 : Option String
  g2 : Option String
  g3 : Option String
deriving DecidableEq

/-- The persisted results mapping: match-id string to stored entry;
`none` models a match id absent from the mapping
(Python's `results.get(mid, {})`). -/
abbrev Results := String → Option Entry

/-- A configured fixture: id, round and the two participants
(`A` = higher seed, `B` = lower seed). -/
structure Match where
  id : Nat
  round : Nat
  A : String
  B : String
deriving DecidableEq

/-- The fixed roster, in seeding order (source constant `PLAYERS`). -/
def PLAYERS : List String := ["Dahn", "Manu", "Homi", "Tobi", "Till"]

/-- The fixed fixture list (source constant `MATCHES`). -/
def MATCHES : List Match :=
  [⟨1, 1, "Dahn", "Homi"⟩, ⟨2, 1, "Tobi", "Manu"⟩,
   ⟨3, 2, "Dahn", "Manu"⟩, ⟨4, 2, "Tobi", "Till"⟩,
   ⟨5, 3, "Manu", "Till"⟩, ⟨6, 3, "Homi", "Tobi"⟩,
   ⟨7, 4, "Dahn", "Tobi"⟩, ⟨8, 4, "Till", "Homi"⟩,
   ⟨9, 5, "Dahn", "Till"⟩, ⟨10, 5, "Manu", "Homi"⟩]

/-- Resolved per-match statistics (one value of the dict returned by
`compute_match_stats`): map wins of each side and the match winner,
where `""` encodes "no winner". -/
structure MatchStats where
  A_maps : Nat
  B_maps : Nat
  winner : String
deriving DecidableEq

/-- One iteration of the slot-counting loop of `compute_match_stats`:
`if gw == A: a_maps += 1 elif gw == B: b_maps += 1`. -/
def tally (A B : String) (acc : Nat × Nat) (gw : String) : Nat × Nat :=
  if gw = A then (acc.1 + 1, acc.2)
  else if gw = B then (acc.1, acc.2 + 1)
  else acc

/-- The per-match body of `compute_match_stats` (source lines 216-229):
count the three slots and pick the winner. -/
def resolveSlots (A B g1 g2 g3 : String) : MatchStats :=
  let ab := [g1, g2, g3].foldl (tally A B) (0, 0)
  { A_maps := ab.1, B_maps := ab.2,
    winner := if ab.2 < ab.1 then A else if ab.1 < ab.2 then B else "" }

/-- `compute_match_stats` for a single fixture: look up the stored entry
(missing entry and missing slot fields default to `""`) and resolve it.
The Python function returns the dict `{str(m.id) ↦ this value}` over all
fixtures; since fixture ids are distinct (`matches_ids_nodup` below) the
dict lookup `match_stats[str(m.id)]` used downstream is exactly this
function applied to `m`. -/
def compute_match_stats (results : Results) (m : Match) : MatchStats :=
  let entry := (results (toString m.id)).getD ⟨none, none, none⟩
  resolveSlots m.A m.B (entry.g1.getD "") (entry.g2.getD "") (entry.g3.getD "")

/-- Per-player aggregate row (one value of the dict built by
`compute_player_aggregate`). -/
structure Agg where
  player : String
  matches_played : Nat
  match_wins : Nat
  match_losses : Nat
  map_wins : Nat
  map_losses : Nat
deriving DecidableEq

/-- Pointwise update of a player-keyed dict, `agg[k] = g(agg[k])`. -/
def updA (f : String → Agg) (k : String) (g : Agg → Agg) : String → Agg :=
  fun x => if x = k then g (f x) else f x

/-- The initial aggregate dict: every player starts with all counters 0. -/
def aggInit : String → Agg := fun p =>
  { player := p, matches_played := 0, match_wins := 0, match_losses := 0,
    map_wins := 0, map_losses := 0 }

/-- The body of the fixture loop of `compute_player_aggregate`
(source lines 256-282), with the `+=` statements in source order. -/
def aggStep (stats : Match → MatchStats) (agg : String → Agg) (m : Match) :
    String → Agg :=
  let ms := stats m
  if ms.A_maps + ms.B_maps = 0 then agg
  else
    let agg1 := updA agg m.A fun a => { a with matches_played := a.matches_played + 1 }
    let agg2 := updA agg1 m.B fun a => { a with matches_played := a.matches_played + 1 }
    let agg3 := updA agg2 m.A fun a => { a with map_wins := a.map_wins + ms.A_maps }
    let agg4 := updA agg3 m.A fun a => { a with map_losses := a.map_losses + ms.B_maps }
    let agg5 := updA agg4 m.B fun a => { a with map_wins := a.map_wins + ms.B_maps }
    let agg6 := updA agg5 m.B fun a => { a with map_losses := a.map_losses + ms.A_maps }
    if ms.winner = m.A then
      updA (updA agg6 m.A fun a => { a with match_wins := a.match_wins + 1 })
        m.B fun a => { a with match_losses := a.match_losses + 1 }
    else if ms.winner = m.B then
      updA (updA agg6 m.B fun a => { a with match_wins := a.match_wins + 1 })
        m.A fun a => { a with match_losses := a.match_losses + 1 }
    else agg6

/-- `compute_player_aggregate`: fold the fixture loop over `MATCHES`. -/
def compute_player_aggregate (stats : Match → MatchStats) : String → Agg :=
  MATCHES.foldl (aggStep stats) aggInit

/-- Mini-table (direct-comparison) counters for one player. -/
structure Mini where
  mini_match_wins : Nat
  mini_map_wins : Nat
deriving DecidableEq

/-- Insertion of a key into the key list of a Python `defaultdict`
(appended on first appearance, kept in place afterwards). -/
def insKeys (ks : List Nat) (w : Nat) : List Nat :=
  if w ∈ ks then ks else ks ++ [w]

/-- The key list of `wins_groups`, in dict insertion order: iterate the
aggregate dict (whose keys are `PLAYERS` in roster order) and record each
match-win count the first time it appears. -/
def winKeys (agg : String → Agg) : List Nat :=
  (PLAYERS.map fun p => (agg p).match_wins).foldl insKeys []

/-- The `wins_groups` defaultdict of `compute_direct_comparison_helpers`
(source lines 293-295), as an association list in dict iteration order:
each match-win count maps to the players holding it, in roster order. -/
def wins_groups (agg : String → Agg) : List (Nat × List String) :=
  (winKeys agg).map fun w => (w, PLAYERS.filter fun p => (agg p).match_wins == w)

/-- The group lookup of the mini-stats loop (source lines 308-312): the
first group of `wins_groups` containing both participants, if any. -/
def findGroup (agg : String → Agg) (A B : String) : Option (List String) :=
  ((wins_groups agg).find? fun g => g.2.contains A && g.2.contains B).map (·.2)

/-- Pointwise update of a player-keyed mini dict. -/
def updM (f : String → Mini) (k : String) (g : Mini → Mini) : String → Mini :=
  fun x => if x = k then g (f x) else f x

/-- The body of the fixture loop of `compute_direct_comparison_helpers`
(source lines 299-326). -/
def miniStep (agg : String → Agg) (stats : Match → MatchStats)
    (mini : String → Mini) (m : Match) : String → Mini :=
  let ms := stats m
  match findGroup agg m.A m.B with
  | none => mini
  | some _ =>
    if ms.A_maps + ms.B_maps = 0 then mini
    else
      let m1 := updM mini m.A fun x => { x with mini_map_wins := x.mini_map_wins + ms.A_maps }
      let m2 := updM m1 m.B fun x => { x with mini_map_wins := x.mini_map_wins + ms.B_maps }
      if ms.winner = m.A then
        updM m2 m.A fun x => { x with mini_match_wins := x.mini_match_wins + 1 }
      else if ms.winner = m.B then
        updM m2 m.B fun x => { x with mini_match_wins := x.mini_match_wins + 1 }
      else m2

/-- `compute_direct_comparison_helpers`: fold the fixture loop over
`MATCHES`, starting from all-zero mini counters. -/
def compute_direct_comparison_helpers (agg : String → Agg)
    (stats : Match → MatchStats) : String → Mini :=
  MATCHES.foldl (miniStep agg stats) (fun _ => ⟨0, 0⟩)

/-- One row of the standings table: the player's aggregate row plus the
two mini-table counters copied in by `compute_standings`. -/
structure Row where
  player : String
  matches_played : Nat
  match_wins : Nat
  match_losses : Nat
  map_wins : Nat
  map_losses : Nat
  mini_match_wins : Nat
  mini_map_wins : Nat
deriving DecidableEq

/-- The sort key tuple of the second (primary) sort of
`compute_standings`:
`(match_wins, mini_match_wins, mini_map_wins, map_wins)`. -/
def sortKey (r : Row) : Nat × Nat × Nat × Nat :=
  (r.match_wins, r.mini_match_wins, r.mini_map_wins, r.map_wins)

/-- Lexicographic `≤` on the four-component key tuples (Python tuple
comparison). -/
def lexLe (x y : Nat × Nat × Nat × Nat) : Bool :=
  decide (x.1 < y.1) ||
    (decide (x.1 = y.1) &&
      (decide (x.2.1 < y.2.1) ||
        (decide (x.2.1 = y.2.1) &&
          (decide (x.2.2.1 < y.2.2.1) ||
            (decide (x.2.2.1 = y.2.2.1) && decide (x.2.2.2 ≤ y.2.2.2))))))

/-- Comparator of the first sort, `table.sort(key=lambda r: r["player"])`:
ascending by player identifier. -/
def rowLeName (r s : Row) : Bool := decide (r.player ≤ s.player)

/-- Comparator of the second sort,
`table.sort(key=..., reverse=True)`: descending by key tuple (a stable
sort with this comparator is exactly Python's stable `reverse=True`
sort). -/
def rowLeKey (r s : Row) : Bool := lexLe (sortKey s) (sortKey r)

/-- The unsorted standings table built by `compute_standings`
(source lines 336-341): one row per roster player, aggregate row plus
mini counters. -/
def standings_table (results : Results) : List Row :=
  let stats := compute_match_stats results
  let agg := compute_player_aggregate stats
  let mini := compute_direct_comparison_helpers agg stats
  PLAYERS.map fun p =>
    { player := (agg p).player,
      matches_played := (agg p).matches_played,
      match_wins := (agg p).match_wins,
      match_losses := (agg p).match_losses,
      map_wins := (agg p).map_wins,
      map_losses := (agg p).map_losses,
      mini_match_wins := (mini p).mini_match_wins,
      mini_map_wins := (mini p).mini_map_wins }

/-- `compute_standings`: build the table, stable-sort ascending by player
name, then stable-sort descending by the key tuple. -/
def compute_standings (results : Results) : List Row :=
  ((standings_table results).mergeSort rowLeName).mergeSort rowLeKey

/-- `scores_to_game_winners` (source lines 357-361): expand numeric map
wins back into per-game winner slots. -/
def scores_to_game_winners (a_maps b_maps : Nat) (player_a player_b : String) :
    List String :=
  ((List.replicate a_maps player_a ++ List.replicate b_maps player_b) ++
    List.replicate (3 - (a_maps + b_maps)) "").take 3

/-- Fixture ids are pairwise distinct, so the per-fixture view of the
`match_stats` dict is faithful. -/
theorem matches_ids_nodup : (MATCHES.map Match.id).Nodup := by decide

/-! ### Helper lemmas about the match resolver -/

/-- Tally step on a slot equal to participant `A`. -/
theorem tally_left (A B : String) (acc : Nat × Nat) :
    tally A B acc A = (acc.1 + 1, acc.2) := by
  simp [tally]

/-- Tally step on a slot equal to participant `B` (distinct from `A`). -/
theorem tally_right (A B : String) (h : B ≠ A) (acc : Nat × Nat) :
    tally A B acc B = (acc.1, acc.2 + 1) := by
  simp [tally, h]

/-- Tally step on a slot equal to neither participant. -/
theorem tally_other (A B g : String) (hA : g ≠ A) (hB : g ≠ B) (acc : Nat × Nat) :
    tally A B acc g = acc := by
  simp [tally, hA, hB]

/-- The slot-counting loop tallies exactly the occurrences of each
participant, provided the participants are distinct. -/
theorem tally_foldl (A B : String) (h : A ≠ B) :
    ∀ (l : List String) (x y : Nat),
      l.foldl (tally A B) (x, y) = (x + l.count A, y + l.count B) := by
  intro l
  induction l with
  | nil => intro x y; simp
  | cons g l ih =>
    intro x y
    rw [List.foldl_cons]
    rcases eq_or_ne g A with rfl | hA
    · rw [tally_left, ih, List.count_cons_self, List.count_cons_of_ne (Ne.symm h)]
      refine Prod.ext (by simp; try omega) (by simp; try omega)
    · rcases eq_or_ne g B with rfl | hB
      · rw [tally_right _ _ (Ne.symm h), ih, List.count_cons_self,
          List.count_cons_of_ne h]
        refine Prod.ext (by simp; try omega) (by simp; try omega)
      · rw [tally_other _ _ _ hA hB, ih, List.count_cons_of_ne (Ne.symm hA),
          List.count_cons_of_ne (Ne.symm hB)]

/-- The two occurrence counts of distinct values never exceed the list
length. -/
theorem count_pair_le (A B : String) (h : A ≠ B) :
    ∀ l : List String, l.count A + l.count B ≤ l.length := by
  intro l
  induction l with
  | nil => simp
  | cons g l ih =>
    rw [List.length_cons]
    rcases eq_or_ne g A with rfl | hA
    · rw [List.count_cons_self, List.count_cons_of_ne (Ne.symm h)]
      omega
    · rcases eq_or_ne g B with rfl | hB
      · rw [List.count_cons_self, List.count_cons_of_ne h]
        omega
      · rw [List.count_cons_of_ne (Ne.symm hA), List.count_cons_of_ne (Ne.symm hB)]
        omega

/-- Map-win counts of the resolver are occurrence counts of the
participants among the three slots (distinct participants). -/
theorem resolveSlots_count (A B : String) (h : A ≠ B) (g1 g2 g3 : String) :
    (resolveSlots A B g1 g2 g3).A_maps = [g1, g2, g3].count A ∧
    (resolveSlots A B g1 g2 g3).B_maps = [g1, g2, g3].count B := by
  have := tally_foldl A B h [g1, g2, g3] 0 0
  constructor
  · show ([g1, g2, g3].foldl (tally A B) (0, 0)).1 = _
    rw [this]
    simp
  · show ([g1, g2, g3].foldl (tally A B) (0, 0)).2 = _
    rw [this]
    simp

/-- The winner field of the resolver, written in terms of its own map-win
fields (definitionally true). -/
theorem resolveSlots_winner_spec (A B g1 g2 g3 : String) :
    (resolveSlots A B g1 g2 g3).winner =
      if (resolveSlots A B g1 g2 g3).B_maps < (resolveSlots A B g1 g2 g3).A_maps then A
      else if (resolveSlots A B g1 g2 g3).A_maps < (resolveSlots A B g1 g2 g3).B_maps then B
      else "" := rfl

/-- Winner selection: strictly more A-maps yields winner `A`. -/
theorem resolveSlots_winner_gt (A B g1 g2 g3 : String)
    (h : (resolveSlots A B g1 g2 g3).B_maps < (resolveSlots A B g1 g2 g3).A_maps) :
    (resolveSlots A B g1 g2 g3).winner = A := by
  rw [resolveSlots_winner_spec, if_pos h]

/-- Winner selection: strictly more B-maps yields winner `B`. -/
theorem resolveSlots_winner_lt (A B g1 g2 g3 : String)
    (h : (resolveSlots A B g1 g2 g3).A_maps < (resolveSlots A B g1 g2 g3).B_maps) :
    (resolveSlots A B g1 g2 g3).winner = B := by
  rw [resolveSlots_winner_spec, if_neg (by omega), if_pos h]

/-- Winner selection: equal map counts yield no winner. -/
theorem resolveSlots_winner_none (A B g1 g2 g3 : String)
    (h : (resolveSlots A B g1 g2 g3).A_maps = (resolveSlots A B g1 g2 g3).B_maps) :
    (resolveSlots A B g1 g2 g3).winner = "" := by
  rw [resolveSlots_winner_spec, if_neg (by omega), if_neg (by omega)]

/-- The winner is always one of the two participants or `""`. -/
theorem resolveSlots_winner_cases (A B g1 g2 g3 : String) :
    (resolveSlots A B g1 g2 g3).winner = A ∨
    (resolveSlots A B g1 g2 g3).winner = B ∨
    (resolveSlots A B g1 g2 g3).winner = "" := by
  rw [resolveSlots_winner_spec]
  split
  · exact Or.inl rfl
  · split
    · exact Or.inr (Or.inl rfl)
    · exact Or.inr (Or.inr rfl)

/-- For participants distinct from `""`, no winner forces equal map
counts. -/
theorem resolveSlots_none_eq (A B g1 g2 g3 : String) (hA : A ≠ "") (hB : B ≠ "")
    (h : (resolveSlots A B g1 g2 g3).winner = "") :
    (resolveSlots A B g1 g2 g3).A_maps = (resolveSlots A B g1 g2 g3).B_maps := by
  rw [resolveSlots_winner_spec] at h
  by_cases h1 : (resolveSlots A B g1 g2 g3).B_maps < (resolveSlots A B g1 g2 g3).A_maps
  · rw [if_pos h1] at h
    exact absurd h hA
  · rw [if_neg h1] at h
    by_cases h2 : (resolveSlots A B g1 g2 g3).A_maps < (resolveSlots A B g1 g2 g3).B_maps
    · rw [if_pos h2] at h
      exact absurd h hB
    · omega

/-- The per-fixture statistics are the resolver applied to the three
stored slots, with absent entries and absent slot fields defaulted to the
empty string. -/
theorem compute_match_stats_eq (results : Results) (m : Match) :
    compute_match_stats results m =
      resolveSlots m.A m.B
        (((results (toString m.id)).getD ⟨none, none, none⟩).g1.getD "")
        (((results (toString m.id)).getD ⟨none, none, none⟩).g2.getD "")
        (((results (toString m.id)).getD ⟨none, none, none⟩).g3.getD "") := rfl

/-- A fixture with no counted game has no winner. -/
theorem resolveSlots_zero (A B g1 g2 g3 : String)
    (h : (resolveSlots A B g1 g2 g3).A_maps + (resolveSlots A B g1 g2 g3).B_maps = 0) :
    (resolveSlots A B g1 g2 g3).winner = "" :=
  resolveSlots_winner_none A B g1 g2 g3 (by omega)

/-- Decidable facts about the fixture list: participants are roster
players, distinct, and nonempty strings. -/
theorem matches_participants :
    ∀ m ∈ MATCHES, m.A ∈ PLAYERS ∧ m.B ∈ PLAYERS ∧ m.A ≠ m.B ∧
      m.A ≠ "" ∧ m.B ≠ "" := by decide

/-- C4: for every configured match and any three game-winner slot values,
the resolver returns `A_maps` = number of slots equal to `A`, `B_maps` =
number of slots equal to `B` (all other slot values are ignored), hence
`A_maps + B_maps ≤ 3`; the winner is `A` when `A_maps > B_maps`, `B` when
`B_maps > A_maps`, and none (`""`) exactly when the counts are equal. -/
theorem c4_match_resolver (m : Match) (hm : m ∈ MATCHES) (g1 g2 g3 : String) :
    (resolveSlots m.A m.B g1 g2 g3).A_maps = [g1, g2, g3].count m.A ∧
    (resolveSlots m.A m.B g1 g2 g3).B_maps = [g1, g2, g3].count m.B ∧
    (resolveSlots m.A m.B g1 g2 g3).A_maps + (resolveSlots m.A m.B g1 g2 g3).B_maps ≤ 3 ∧
    ((resolveSlots m.A m.B g1 g2 g3).B_maps < (resolveSlots m.A m.B g1 g2 g3).A_maps →
      (resolveSlots m.A m.B g1 g2 g3).winner = m.A) ∧
    ((resolveSlots m.A m.B g1 g2 g3).A_maps < (resolveSlots m.A m.B g1 g2 g3).B_maps →
      (resolveSlots m.A m.B g1 g2 g3).winner = m.B) ∧
    ((resolveSlots m.A m.B g1 g2 g3).winner = "" ↔
      (resolveSlots m.A m.B g1 g2 g3).A_maps = (resolveSlots m.A m.B g1 g2 g3).B_maps) := by
  obtain ⟨-, -, hne, hA0, hB0⟩ := matches_participants m hm
  obtain ⟨hcA, hcB⟩ := resolveSlots_count m.A m.B hne g1 g2 g3
  refine ⟨hcA, hcB, ?_, ?_, ?_, ?_, ?_⟩
  · rw [hcA, hcB]
    simpa using count_pair_le m.A m.B hne [g1, g2, g3]
  · exact resolveSlots_winner_gt m.A m.B g1 g2 g3
  · exact resolveSlots_winner_lt m.A m.B g1 g2 g3
  · exact resolveSlots_none_eq m.A m.B g1 g2 g3 hA0 hB0
  · exact resolveSlots_winner_none m.A m.B g1 g2 g3

/-- Witness for C4 at match 1 with slots `["Dahn", "Homi", "Dahn"]`. -/
theorem c4_match_resolver_witness :
    (⟨1, 1, "Dahn", "Homi"⟩ : Match) ∈ MATCHES ∧
    ((resolveSlots "Dahn" "Homi" "Dahn" "Homi" "Dahn").A_maps =
        ["Dahn", "Homi", "Dahn"].count "Dahn" ∧
      (resolveSlots "Dahn" "Homi" "Dahn" "Homi" "Dahn").B_maps =
        ["Dahn", "Homi", "Dahn"].count "Homi" ∧
      (resolveSlots "Dahn" "Homi" "Dahn" "Homi" "Dahn").A_maps +
          (resolveSlots "Dahn" "Homi" "Dahn" "Homi" "Dahn").B_maps ≤ 3 ∧
      ((resolveSlots "Dahn" "Homi" "Dahn" "Homi" "Dahn").B_maps <
          (resolveSlots "Dahn" "Homi" "Dahn" "Homi" "Dahn").A_maps →
        (resolveSlots "Dahn" "Homi" "Dahn" "Homi" "Dahn").winner = "Dahn") ∧
      ((resolveSlots "Dahn" "Homi" "Dahn" "Homi" "Dahn").A_maps <
          (resolveSlots "Dahn" "Homi" "Dahn" "Homi" "Dahn").B_maps →
        (resolveSlots "Dahn" "Homi" "Dahn" "Homi" "Dahn").winner = "Homi") ∧
      ((resolveSlots "Dahn" "Homi" "Dahn" "Homi" "Dahn").winner = "" ↔
        (resolveSlots "Dahn" "Homi" "Dahn" "Homi" "Dahn").A_maps =
          (resolveSlots "Dahn" "Homi" "Dahn" "Homi" "Dahn").B_maps)) :=
  ⟨by decide, c4_match_resolver ⟨1, 1, "Dahn", "Homi"⟩ (by decide) "Dahn" "Homi" "Dahn"⟩

/-- C9: for counts with `a + b ≤ 3`, the inverse mapping produces exactly
three slots: `a` copies of `A`, then `b` copies of `B`, then empty
padding. -/
theorem c9_scores_to_game_winners (a b : Nat) (A B : String) (h : a + b ≤ 3) :
    scores_to_game_winners a b A B =
      List.replicate a A ++ List.replicate b B ++ List.replicate (3 - (a + b)) "" ∧
    (scores_to_game_winners a b A B).length = 3 := by
  have hlen :
      (List.replicate a A ++ List.replicate b B ++
        List.replicate (3 - (a + b)) "").length = 3 := by
    simp only [List.length_append, List.length_replicate]
    omega
  constructor
  · unfold scores_to_game_winners
    exact List.take_of_length_le (le_of_eq hlen)
  · unfold scores_to_game_winners
    rw [List.length_take, hlen]
    simp

/-- Witness for C9 at `(a, b) = (2, 1)`. -/
theorem c9_scores_to_game_winners_witness :
    2 + 1 ≤ 3 ∧
    (scores_to_game_winners 2 1 "Dahn" "Homi" =
        List.replicate 2 "Dahn" ++ List.replicate 1 "Homi" ++
          List.replicate (3 - (2 + 1)) "" ∧
      (scores_to_game_winners 2 1 "Dahn" "Homi").length = 3) :=
  ⟨by decide, c9_scores_to_game_winners 2 1 "Dahn" "Homi" (by decide)⟩

/-- C10: for distinct roster players `A ≠ B` and counts with
`a + b ≤ 3`, resolving the three slots produced by
`scores_to_game_winners` recovers exactly the counts `(a, b)`. -/
theorem c10_round_trip (a b : Nat) (A B : String)
    (hA : A ∈ PLAYERS) (hB : B ∈ PLAYERS) (hne : A ≠ B) (hab : a + b ≤ 3) :
    (resolveSlots A B ((scores_to_game_winners a b A B).getD 0 "")
        ((scores_to_game_winners a b A B).getD 1 "")
        ((scores_to_game_winners a b A B).getD 2 "")).A_maps = a ∧
    (resolveSlots A B ((scores_to_game_winners a b A B).getD 0 "")
        ((scores_to_game_winners a b A B).getD 1 "")
        ((scores_to_game_winners a b A B).getD 2 "")).B_maps = b := by
  have hA0 : A ≠ "" := by rintro rfl; exact absurd hA (by decide)
  have hB0 : B ≠ "" := by rintro rfl; exact absurd hB (by decide)
  have ha3 : a ≤ 3 := by omega
  have hb3 : b ≤ 3 := by omega
  interval_cases a <;> interval_cases b <;>
    simp_all [scores_to_game_winners, resolveSlots, tally,
      Ne.symm hne, Ne.symm hA0, Ne.symm hB0]

/-- Witness for C10 at `(a, b) = (2, 1)` with players Dahn and Homi. -/
theorem c10_round_trip_witness :
    "Dahn" ∈ PLAYERS ∧ "Homi" ∈ PLAYERS ∧ "Dahn" ≠ "Homi" ∧ 2 + 1 ≤ 3 ∧
    ((resolveSlots "Dahn" "Homi" ((scores_to_game_winners 2 1 "Dahn" "Homi").getD 0 "")
        ((scores_to_game_winners 2 1 "Dahn" "Homi").getD 1 "")
        ((scores_to_game_winners 2 1 "Dahn" "Homi").getD 2 "")).A_maps = 2 ∧
      (resolveSlots "Dahn" "Homi" ((scores_to_game_winners 2 1 "Dahn" "Homi").getD 0 "")
        ((scores_to_game_winners 2 1 "Dahn" "Homi").getD 1 "")
        ((scores_to_game_winners 2 1 "Dahn" "Homi").getD 2 "")).B_maps = 1) :=
  ⟨by decide, by decide, by decide, by decide,
    c10_round_trip 2 1 "Dahn" "Homi" (by decide) (by decide) (by decide) (by decide)⟩

/-- Normalised view of a stored entry: the three slot values actually
read by the resolver, with a missing entry and missing slot fields
defaulted to `""`. -/
def entryNorm (o : Option Entry) : String × String × String :=
  let e := o.getD ⟨none, none, none⟩
  (e.g1.getD "", e.g2.getD "", e.g3.getD "")

/-- C8 (amended): the statistics of a fixture depend only on the
normalised slot values — so a match id absent from the mapping behaves
like an all-empty entry, and a missing slot field behaves like an empty
slot (not like an all-empty entry); moreover a slot value equal to
neither participant leaves the tally unchanged (a win for neither
side). -/
theorem c8_lenient_defaults (results results' : Results) (m : Match)
    (A B gw : String) (acc : Nat × Nat) :
    (entryNorm (results (toString m.id)) = entryNorm (results' (toString m.id)) →
      compute_match_stats results m = compute_match_stats results' m) ∧
    (results (toString m.id) = none →
      compute_match_stats results m = resolveSlots m.A m.B "" "" "") ∧
    (gw ≠ A → gw ≠ B → tally A B acc gw = acc) := by
  refine ⟨?_, ?_, ?_⟩
  · intro h
    rw [compute_match_stats_eq, compute_match_stats_eq]
    simp only [entryNorm, Prod.mk.injEq] at h
    rw [h.1, h.2.1, h.2.2]
  · intro h
    rw [compute_match_stats_eq, h]
    rfl
  · intro hA hB
    exact tally_other A B gw hA hB acc

/-- Witness for C8 (amended): an absent mapping agrees with an entry
whose slot fields are partly missing and partly explicitly empty, an
absent mapping resolves like an all-empty entry, and an unknown slot
value is ignored by the tally. -/
theorem c8_lenient_defaults_witness :
    (compute_match_stats (fun _ => none) ⟨1, 1, "Dahn", "Homi"⟩ =
        compute_match_stats (fun _ => some ⟨some "", none, some ""⟩) ⟨1, 1, "Dahn", "Homi"⟩) ∧
    (compute_match_stats (fun _ => none) ⟨1, 1, "Dahn", "Homi"⟩ =
        resolveSlots "Dahn" "Homi" "" "" "") ∧
    tally "Dahn" "Homi" (0, 0) "Castle" = (0, 0) :=
  ⟨(c8_lenient_defaults (fun _ => none) (fun _ => some ⟨some "", none, some ""⟩)
      ⟨1, 1, "Dahn", "Homi"⟩ "Dahn" "Homi" "Castle" (0, 0)).1 (by decide),
   (c8_lenient_defaults (fun _ => none) (fun _ => some ⟨some "", none, some ""⟩)
      ⟨1, 1, "Dahn", "Homi"⟩ "Dahn" "Homi" "Castle" (0, 0)).2.1 rfl,
   (c8_lenient_defaults (fun _ => none) (fun _ => some ⟨some "", none, some ""⟩)
      ⟨1, 1, "Dahn", "Homi"⟩ "Dahn" "Homi" "Castle" (0, 0)).2.2 (by decide) (by decide)⟩

/-- A results mapping whose entry for match 1 has `g1 = "Dahn"` but is
missing the `g2` and `g3` slot fields. -/
def results_missing_fields : Results :=
  fun s => if s = "1" then some ⟨some "Dahn", none, none⟩ else none

/-- Counterexample to C8 as stated: an entry that is missing some slot
fields but has another slot set is NOT treated identically to an entry
with all three slots empty — the resolver credits the set slot. -/
theorem c8_counterexample :
    (⟨1, 1, "Dahn", "Homi"⟩ : Match) ∈ MATCHES ∧
    compute_match_stats results_missing_fields ⟨1, 1, "Dahn", "Homi"⟩ ≠
      compute_match_stats (fun _ => none) ⟨1, 1, "Dahn", "Homi"⟩ ∧
    compute_match_stats results_missing_fields ⟨1, 1, "Dahn", "Homi"⟩ =
      ⟨1, 0, "Dahn"⟩ ∧
    compute_match_stats (fun _ => none) ⟨1, 1, "Dahn", "Homi"⟩ = ⟨0, 0, ""⟩ := by
  decide

/-! ### Per-match contribution form of the aggregate pass -/

/-- The per-match contribution of one fixture to one player's aggregate
counters, as described by the specification: nothing for a fixture with
no counted game; otherwise a played match for both participants, the map
counts credited symmetrically, and a match win/loss for the winner and
the other participant. -/
structure AggDelta where
  matches_played : Nat
  match_wins : Nat
  match_losses : Nat
  map_wins : Nat
  map_losses : Nat
deriving DecidableEq

/-- The zero contribution. -/
def AggDelta.zero : AggDelta := ⟨0, 0, 0, 0, 0⟩

/-- Componentwise sum of contributions. -/
def AggDelta.add (x y : AggDelta) : AggDelta :=
  ⟨x.matches_played + y.matches_played, x.match_wins + y.match_wins,
   x.match_losses + y.match_losses, x.map_wins + y.map_wins,
   x.map_losses + y.map_losses⟩

/-- Adding a contribution onto an aggregate row (the `player` field is
untouched). -/
def Agg.applyD (a : Agg) (d : AggDelta) : Agg :=
  { a with
    matches_played := a.matches_played + d.matches_played,
    match_wins := a.match_wins + d.match_wins,
    match_losses := a.match_losses + d.match_losses,
    map_wins := a.map_wins + d.map_wins,
    map_losses := a.map_losses + d.map_losses }

/-- The specification's per-match aggregate contribution for player `p`. -/
def aggDelta (stats : Match → MatchStats) (p : String) (m : Match) : AggDelta :=
  let ms := stats m
  if ms.A_maps + ms.B_maps = 0 then AggDelta.zero
  else
    { matches_played := (if p = m.A then 1 else 0) + (if p = m.B then 1 else 0),
      match_wins :=
        if ms.winner = m.A then (if p = m.A then 1 else 0)
        else if ms.winner = m.B then (if p = m.B then 1 else 0) else 0,
      match_losses :=
        if ms.winner = m.A then (if p = m.B then 1 else 0)
        else if ms.winner = m.B then (if p = m.A then 1 else 0) else 0,
      map_wins := (if p = m.A then ms.A_maps else 0) + (if p = m.B then ms.B_maps else 0),
      map_losses := (if p = m.A then ms.B_maps else 0) + (if p = m.B then ms.A_maps else 0) }

/-- Sum of a list of contributions. -/
def sumAggDelta (ds : List AggDelta) : AggDelta := ds.foldr AggDelta.add AggDelta.zero

theorem Agg.applyD_zero (a : Agg) : a.applyD AggDelta.zero = a := by
  cases a
  simp [Agg.applyD, AggDelta.zero]

theorem Agg.applyD_add (a : Agg) (d e : AggDelta) :
    (a.applyD d).applyD e = a.applyD (d.add e) := by
  cases a; cases d; cases e
  simp [Agg.applyD, AggDelta.add, Nat.add_assoc]

/-- One aggregate loop iteration adds exactly the per-match
contribution to every player's row. -/
theorem aggStep_apply (stats : Match → MatchStats) (agg : String → Agg)
    (m : Match) (p : String) :
    aggStep stats agg m p = (agg p).applyD (aggDelta stats p m) := by
  unfold aggStep aggDelta
  simp only [updA]
  split_ifs <;>
    simp_all [updA, Agg.applyD, Agg.applyD_zero, AggDelta.zero] <;> omega

/-- Folding the aggregate loop over any fixture list adds the sum of the
per-match contributions to every player's row. -/
theorem foldl_aggStep (stats : Match → MatchStats) :
    ∀ (l : List Match) (agg : String → Agg) (p : String),
      l.foldl (aggStep stats) agg p =
        (agg p).applyD (sumAggDelta (l.map (aggDelta stats p))) := by
  intro l
  induction l with
  | nil => intro agg p; simp [sumAggDelta, Agg.applyD_zero]
  | cons m l ih =>
    intro agg p
    rw [List.foldl_cons, ih, aggStep_apply, Agg.applyD_add]
    rfl

/-- The aggregate dict is the initial row plus the summed per-match
contributions. -/
theorem compute_player_aggregate_eq (stats : Match → MatchStats) (p : String) :
    compute_player_aggregate stats p =
      (aggInit p).applyD (sumAggDelta (MATCHES.map (aggDelta stats p))) :=
  foldl_aggStep stats MATCHES aggInit p

/-- C3: the aggregate pass credits every player with exactly the sum of
the per-match contributions described by the specification — for each
fixture with `A_maps + B_maps > 0`, one played match for both
participants, map wins/losses credited symmetrically, and a match
win/loss for the winner and the other participant; a fixture with
`A_maps + B_maps = 0` contributes nothing at all. -/
theorem c3_aggregate_pass (results : Results) (p : String) (hp : p ∈ PLAYERS) :
    compute_player_aggregate (compute_match_stats results) p =
      (aggInit p).applyD
        (sumAggDelta (MATCHES.map (aggDelta (compute_match_stats results) p))) ∧
    (∀ m : Match,
      (compute_match_stats results m).A_maps + (compute_match_stats results m).B_maps = 0 →
      aggDelta (compute_match_stats results) p m = AggDelta.zero) :=
  ⟨compute_player_aggregate_eq (compute_match_stats results) p,
   fun m h0 => by rw [aggDelta, if_pos h0]⟩

/-- Witness for C3 at the empty result mapping and player Dahn. -/
theorem c3_aggregate_pass_witness :
    "Dahn" ∈ PLAYERS ∧
    (compute_player_aggregate (compute_match_stats fun _ => none) "Dahn" =
        (aggInit "Dahn").applyD
          (sumAggDelta (MATCHES.map (aggDelta (compute_match_stats fun _ => none) "Dahn"))) ∧
      (∀ m : Match,
        (compute_match_stats (fun _ => none) m).A_maps +
            (compute_match_stats (fun _ => none) m).B_maps = 0 →
        aggDelta (compute_match_stats fun _ => none) "Dahn" m = AggDelta.zero)) :=
  ⟨by decide, c3_aggregate_pass (fun _ => none) "Dahn" (by decide)⟩

/-! ### Tier grouping -/

/-- Membership in one defaultdict key insertion. -/
theorem mem_insKeys (ks : List Nat) (a w : Nat) :
    w ∈ insKeys ks a ↔ w ∈ ks ∨ w = a := by
  unfold insKeys
  split
  · rename_i h
    constructor
    · exact Or.inl
    · rintro (h' | rfl)
      · exact h'
      · exact h
  · simp [List.mem_append]

/-- Membership in the folded key list. -/
theorem mem_foldl_insKeys :
    ∀ (l : List Nat) (acc : List Nat) (w : Nat),
      w ∈ l.foldl insKeys acc ↔ w ∈ acc ∨ w ∈ l := by
  intro l
  induction l with
  | nil => intro acc w; simp
  | cons a l ih =>
    intro acc w
    rw [List.foldl_cons, ih, mem_insKeys]
    simp only [List.mem_cons]
    tauto

/-- A key is in `winKeys` iff some roster player holds that match-win
count. -/
theorem mem_winKeys (agg : String → Agg) (w : Nat) :
    w ∈ winKeys agg ↔ ∃ p ∈ PLAYERS, (agg p).match_wins = w := by
  unfold winKeys
  rw [mem_foldl_insKeys]
  simp [eq_comm]

/-- Key insertion preserves distinctness of the key list. -/
theorem nodup_insKeys (ks : List Nat) (a : Nat) (h : ks.Nodup) :
    (insKeys ks a).Nodup := by
  unfold insKeys
  split
  · exact h
  · rename_i ha
    simp [List.nodup_append, h, ha]

/-- The folded key list is duplicate-free. -/
theorem nodup_foldl_insKeys :
    ∀ (l : List Nat) (acc : List Nat), acc.Nodup → (l.foldl insKeys acc).Nodup := by
  intro l
  induction l with
  | nil => intro acc h; exact h
  | cons a l ih =>
    intro acc h
    exact ih _ (nodup_insKeys acc a h)

/-- `winKeys` is duplicate-free. -/
theorem winKeys_nodup (agg : String → Agg) : (winKeys agg).Nodup :=
  nodup_foldl_insKeys _ [] List.nodup_nil

/-- The group lookup of the mini-stats loop succeeds exactly when both
participants are roster players with equal match-win counts. -/
theorem findGroup_ne_none_iff (agg : String → Agg) (A B : String) :
    findGroup agg A B ≠ none ↔
      A ∈ PLAYERS ∧ B ∈ PLAYERS ∧ (agg A).match_wins = (agg B).match_wins := by
  unfold findGroup wins_groups
  rw [Ne, Option.map_eq_none', List.find?_eq_none]
  constructor
  · intro h
    by_contra hc
    apply h
    intro g hg
    simp only [List.mem_map] at hg
    obtain ⟨w, hw, rfl⟩ := hg
    simp only [Bool.and_eq_true, List.contains_iff_exists_mem_beq, not_and]
    intro hA
    obtain ⟨x, hx, hbx⟩ := hA
    rw [beq_iff_eq] at hbx
    subst hbx
    rw [List.mem_filter, beq_iff_eq] at hx
    rintro ⟨y, hy, hby⟩
    rw [beq_iff_eq] at hby
    subst hby
    rw [List.mem_filter, beq_iff_eq] at hy
    exact hc ⟨hx.1, hy.1, hx.2.trans hy.2.symm⟩
  · rintro ⟨hA, hB, heq⟩ h
    have hw : (agg A).match_wins ∈ winKeys agg :=
      (mem_winKeys agg _).mpr ⟨A, hA, rfl⟩
    have := h ((agg A).match_wins,
      PLAYERS.filter fun p => (agg p).match_wins == (agg A).match_wins)
      (List.mem_map_of_mem _ hw)
    apply this
    simp only [Bool.and_eq_true, List.contains_iff_exists_mem_beq]
    constructor
    · exact ⟨A, List.mem_filter.mpr ⟨hA, by simp⟩, by simp⟩
    · exact ⟨B, List.mem_filter.mpr ⟨hB, by simp [heq]⟩, by simp⟩

/-! ### Per-match contribution form of the mini-stats pass -/

/-- Componentwise sum of mini counters. -/
def Mini.add (x y : Mini) : Mini :=
  ⟨x.mini_match_wins + y.mini_match_wins, x.mini_map_wins + y.mini_map_wins⟩

/-- Sum of a list of mini contributions. -/
def sumMini (ds : List Mini) : Mini := ds.foldr Mini.add ⟨0, 0⟩

theorem Mini.add_zero_right (x : Mini) : Mini.add x ⟨0, 0⟩ = x := by
  cases x; simp [Mini.add]

theorem Mini.add_zero_left (x : Mini) : Mini.add ⟨0, 0⟩ x = x := by
  cases x; simp [Mini.add]

theorem Mini.add_assoc (x y z : Mini) :
    Mini.add (Mini.add x y) z = Mini.add x (Mini.add y z) := by
  cases x; cases y; cases z
  simp [Mini.add, Nat.add_assoc]

/-- The specification's per-match mini-stats contribution for player `p`:
zero unless the two participants have equal match-win counts (same tier)
and the fixture has at least one counted game; otherwise the map counts
for each participant and a match win for the winner, if any. -/
def miniDelta (agg : String → Agg) (stats : Match → MatchStats) (p : String)
    (m : Match) : Mini :=
  let ms := stats m
  if (agg m.A).match_wins = (agg m.B).match_wins ∧ ¬ms.A_maps + ms.B_maps = 0 then
    { mini_match_wins :=
        if ms.winner = m.A then (if p = m.A then 1 else 0)
        else if ms.winner = m.B then (if p = m.B then 1 else 0) else 0,
      mini_map_wins :=
        (if p = m.A then ms.A_maps else 0) + (if p = m.B then ms.B_maps else 0) }
  else ⟨0, 0⟩

/-- One mini-stats loop iteration adds exactly the per-match mini
contribution to every player's counters (for fixtures between roster
players). -/
theorem miniStep_apply (agg : String → Agg) (stats : Match → MatchStats)
    (mini : String → Mini) (m : Match) (p : String)
    (hA : m.A ∈ PLAYERS) (hB : m.B ∈ PLAYERS) :
    miniStep agg stats mini m p = Mini.add (mini p) (miniDelta agg stats p m) := by
  unfold miniStep miniDelta
  rcases hfg : findGroup agg m.A m.B with - | g
  · have hne : ¬(agg m.A).match_wins = (agg m.B).match_wins := by
      intro heq
      exact absurd hfg
        (by simpa using (findGroup_ne_none_iff agg m.A m.B).mpr ⟨hA, hB, heq⟩)
    try simp only [hfg]
    rw [if_neg (by intro hc; exact hne hc.1), Mini.add_zero_right]
  · have heq : (agg m.A).match_wins = (agg m.B).match_wins := by
      have := (findGroup_ne_none_iff agg m.A m.B).mp (by simp [hfg])
      exact this.2.2
    try simp only [hfg]
    unfold updM
    split_ifs <;>
      simp_all [Mini.add, Mini.add_zero_right] <;> omega

/-- Folding the mini-stats loop over any fixture list between roster
players adds the summed contributions. -/
theorem foldl_miniStep (agg : String → Agg) (stats : Match → MatchStats) :
    ∀ (l : List Match), (∀ m ∈ l, m.A ∈ PLAYERS ∧ m.B ∈ PLAYERS) →
      ∀ (mini : String → Mini) (p : String),
        l.foldl (miniStep agg stats) mini p =
          Mini.add (mini p) (sumMini (l.map (miniDelta agg stats p))) := by
  intro l
  induction l with
  | nil => intro _ mini p; simp [sumMini, Mini.add_zero_right]
  | cons m l ih =>
    intro hl mini p
    rw [List.foldl_cons,
      ih (fun x hx => hl x (List.mem_cons_of_mem m hx)) _ p,
      miniStep_apply agg stats mini m p (hl m (List.mem_cons_self m l)).1
        (hl m (List.mem_cons_self m l)).2,
      Mini.add_assoc]
    rfl

/-- The mini-stats dict is exactly the summed per-match contributions. -/
theorem compute_direct_comparison_helpers_eq (agg : String → Agg)
    (stats : Match → MatchStats) (p : String) :
    compute_direct_comparison_helpers agg stats p =
      sumMini (MATCHES.map (miniDelta agg stats p)) := by
  unfold compute_direct_comparison_helpers
  rw [foldl_miniStep agg stats MATCHES
    (fun m hm => ⟨(matches_participants m hm).1, (matches_participants m hm).2.1⟩),
    Mini.add_zero_left]

/-- C1: the mini-stats pass credits every player with exactly the summed
per-match contributions described by the specification — a fixture
contributes only when it has at least one counted game and its two
participants lie in the same tier group (equal match-win counts), in
which case each participant's mini-map-wins grow by their map count and
the winner (if any) gains one mini-match-win; all other fixtures
contribute nothing. -/
theorem c1_mini_stats_pass (results : Results) (p : String) (hp : p ∈ PLAYERS) :
    compute_direct_comparison_helpers
        (compute_player_aggregate (compute_match_stats results))
        (compute_match_stats results) p =
      sumMini (MATCHES.map
        (miniDelta (compute_player_aggregate (compute_match_stats results))
          (compute_match_stats results) p)) ∧
    (∀ m : Match,
      ((compute_player_aggregate (compute_match_stats results) m.A).match_wins ≠
          (compute_player_aggregate (compute_match_stats results) m.B).match_wins ∨
        (compute_match_stats results m).A_maps + (compute_match_stats results m).B_maps = 0) →
      miniDelta (compute_player_aggregate (compute_match_stats results))
        (compute_match_stats results) p m = ⟨0, 0⟩) := by
  refine ⟨compute_direct_comparison_helpers_eq _ _ p, fun m hm => ?_⟩
  rw [miniDelta]
  rw [if_neg ?_]
  rcases hm with hm | hm
  · exact fun hc => hm hc.1
  · exact fun hc => hc.2 hm

/-- Witness for C1 at the empty result mapping and player Dahn. -/
theorem c1_mini_stats_pass_witness :
    "Dahn" ∈ PLAYERS ∧
    (compute_direct_comparison_helpers
        (compute_player_aggregate (compute_match_stats fun _ => none))
        (compute_match_stats fun _ => none) "Dahn" =
      sumMini (MATCHES.map
        (miniDelta (compute_player_aggregate (compute_match_stats fun _ => none))
          (compute_match_stats fun _ => none) "Dahn")) ∧
    (∀ m : Match,
      ((compute_player_aggregate (compute_match_stats fun _ => none) m.A).match_wins ≠
          (compute_player_aggregate (compute_match_stats fun _ => none) m.B).match_wins ∨
        (compute_match_stats (fun _ => none) m).A_maps +
          (compute_match_stats (fun _ => none) m).B_maps = 0) →
      miniDelta (compute_player_aggregate (compute_match_stats fun _ => none))
        (compute_match_stats fun _ => none) "Dahn" m = ⟨0, 0⟩)) :=
  ⟨by decide, c1_mini_stats_pass (fun _ => none) "Dahn" (by decide)⟩

/-- Tier groups form a partition indexed by match-win count, for any
aggregate dict. -/
theorem wins_groups_partition (agg : String → Agg) (p q : String)
    (hp : p ∈ PLAYERS) (hq : q ∈ PLAYERS) :
    (wins_groups agg).countP (fun g => g.2.contains p) = 1 ∧
    ((∃ g ∈ wins_groups agg, p ∈ g.2 ∧ q ∈ g.2) ↔
      (agg p).match_wins = (agg q).match_wins) := by
  constructor
  · unfold wins_groups
    rw [List.countP_map]
    have hcongr :
        ∀ w ∈ winKeys agg,
          (((fun g : Nat × List String => g.2.contains p) ∘
            (fun w => (w, PLAYERS.filter fun x => (agg x).match_wins == w))) w = true ↔
            (w == (agg p).match_wins) = true) := by
      intro w _
      simp only [Function.comp]
      simp only [List.contains_iff_exists_mem_beq, beq_iff_eq]
      constructor
      · rintro ⟨x, hx, rfl⟩
        rw [List.mem_filter, beq_iff_eq] at hx
        exact hx.2.symm
      · rintro rfl
        exact ⟨p, List.mem_filter.mpr ⟨hp, by simp⟩, rfl⟩
    rw [List.countP_congr hcongr]
    have : (winKeys agg).countP (fun w => w == (agg p).match_wins) =
        (winKeys agg).count ((agg p).match_wins) := rfl
    rw [this]
    exact List.count_eq_one_of_mem (winKeys_nodup agg)
      ((mem_winKeys agg _).mpr ⟨p, hp, rfl⟩)
  · constructor
    · rintro ⟨g, hg, hpg, hqg⟩
      unfold wins_groups at hg
      rw [List.mem_map] at hg
      obtain ⟨w, -, rfl⟩ := hg
      rw [List.mem_filter, beq_iff_eq] at hpg hqg
      exact hpg.2.trans hqg.2.symm
    · intro heq
      refine ⟨((agg p).match_wins,
        PLAYERS.filter fun x => (agg x).match_wins == (agg p).match_wins),
        ?_, ?_, ?_⟩
      · unfold wins_groups
        exact List.mem_map_of_mem _ ((mem_winKeys agg _).mpr ⟨p, hp, rfl⟩)
      · exact List.mem_filter.mpr ⟨hp, by simp⟩
      · exact List.mem_filter.mpr ⟨hq, by simp [heq]⟩

/-- C6: for every result set, the tier grouping computed from the player
aggregates partitions the roster — every configured player lies in
exactly one group, and two players share a group iff their match-win
counts are equal. -/
theorem c6_tier_partition (results : Results) (p q : String)
    (hp : p ∈ PLAYERS) (hq : q ∈ PLAYERS) :
    (wins_groups (compute_player_aggregate (compute_match_stats results))).countP
        (fun g => g.2.contains p) = 1 ∧
    ((∃ g ∈ wins_groups (compute_player_aggregate (compute_match_stats results)),
        p ∈ g.2 ∧ q ∈ g.2) ↔
      (compute_player_aggregate (compute_match_stats results) p).match_wins =
        (compute_player_aggregate (compute_match_stats results) q).match_wins) :=
  wins_groups_partition _ p q hp hq

/-- Witness for C6 at the empty result mapping with players Dahn and
Manu. -/
theorem c6_tier_partition_witness :
    "Dahn" ∈ PLAYERS ∧ "Manu" ∈ PLAYERS ∧
    ((wins_groups (compute_player_aggregate (compute_match_stats fun _ => none))).countP
        (fun g => g.2.contains "Dahn") = 1 ∧
    ((∃ g ∈ wins_groups (compute_player_aggregate (compute_match_stats fun _ => none)),
        "Dahn" ∈ g.2 ∧ "Manu" ∈ g.2) ↔
      (compute_player_aggregate (compute_match_stats fun _ => none) "Dahn").match_wins =
        (compute_player_aggregate (compute_match_stats fun _ => none) "Manu").match_wins)) :=
  ⟨by decide, by decide, c6_tier_partition (fun _ => none) "Dahn" "Manu" (by decide) (by decide)⟩

/-! ### Standings assembly and ordering -/

/-- The aggregate loop never changes the `player` field. -/
theorem compute_player_aggregate_player (stats : Match → MatchStats) (p : String) :
    (compute_player_aggregate stats p).player = p := by
  rw [compute_player_aggregate_eq]
  rfl

/-- The players of the unsorted standings table are the roster, in
order. -/
theorem standings_table_players (results : Results) :
    (standings_table results).map Row.player = PLAYERS := by
  unfold standings_table
  rw [List.map_map]
  have h : ∀ p ∈ PLAYERS,
      (Row.player ∘ fun p =>
        ({ player := (compute_player_aggregate (compute_match_stats results) p).player,
           matches_played := (compute_player_aggregate (compute_match_stats results) p).matches_played,
           match_wins := (compute_player_aggregate (compute_match_stats results) p).match_wins,
           match_losses := (compute_player_aggregate (compute_match_stats results) p).match_losses,
           map_wins := (compute_player_aggregate (compute_match_stats results) p).map_wins,
           map_losses := (compute_player_aggregate (compute_match_stats results) p).map_losses,
           mini_match_wins :=
             (compute_direct_comparison_helpers
               (compute_player_aggregate (compute_match_stats results))
               (compute_match_stats results) p).mini_match_wins,
           mini_map_wins :=
             (compute_direct_comparison_helpers
               (compute_player_aggregate (compute_match_stats results))
               (compute_match_stats results) p).mini_map_wins } : Row)) p = p := by
    intro p _
    exact compute_player_aggregate_player _ p
  rw [List.map_congr_left h]
  simp

/-- The sorted standings are a permutation of the unsorted table. -/
theorem compute_standings_perm (results : Results) :
    (compute_standings results).Perm (standings_table results) :=
  (List.mergeSort_perm _ rowLeKey).trans (List.mergeSort_perm _ rowLeName)

/-- C5: `compute_standings` returns exactly one row per configured
player — the multiset of row players is exactly the (duplicate-free)
roster, so there are no omissions and no duplicates, including players
with no recorded game. -/
theorem c5_one_row_per_player (results : Results) :
    ((compute_standings results).map Row.player).Perm PLAYERS ∧ PLAYERS.Nodup := by
  constructor
  · have h := (compute_standings_perm results).map Row.player
    rwa [standings_table_players] at h
  · decide

/-! ### Conservation sums -/

theorem sum_map_ite_zero (A : String) (x : Nat) :
    ∀ L : List String, A ∉ L → (L.map fun p => if p = A then x else 0).sum = 0 := by
  intro L
  induction L with
  | nil => intro _; simp
  | cons q L ih =>
    intro hA
    rw [List.map_cons, List.sum_cons, ih (fun h => hA (List.mem_cons_of_mem q h)),
      if_neg (fun (h : q = A) => hA (h ▸ List.mem_cons_self q L))]

theorem sum_map_ite_one (A : String) (x : Nat) :
    ∀ L : List String, L.Nodup → A ∈ L → (L.map fun p => if p = A then x else 0).sum = x := by
  intro L
  induction L with
  | nil => intro _ h; cases h
  | cons q L ih =>
    intro hnd hA
    rw [List.map_cons, List.sum_cons]
    rcases List.mem_cons.mp hA with rfl | hA'
    · rw [if_pos rfl, sum_map_ite_zero A x L (List.nodup_cons.mp hnd).1]
      omega
    · rw [if_neg, ih (List.nodup_cons.mp hnd).2 hA']
      · omega
      · intro h
        exact (List.nodup_cons.mp hnd).1 (h ▸ hA')

theorem sum_swap (f : String → Match → Nat) (l2 : List Match) :
    ∀ l1 : List String,
      (l1.map fun a => ((l2.map (f a)).sum)).sum =
        (l2.map fun b => ((l1.map fun a => f a b).sum)).sum := by
  intro l1
  induction l1 with
  | nil => simp
  | cons a l1 ih =>
    rw [List.map_cons, List.sum_cons, ih]
    rw [show (l2.map fun b => (((a :: l1).map fun a => f a b).sum)) =
      l2.map fun b => f a b + ((l1.map fun a => f a b).sum) from rfl]
    rw [List.sum_map_add]

theorem sum_map_bool (l : List Match) (q : Match → Bool) :
    (l.map fun m => if q m then (1 : Nat) else 0).sum = l.countP q := by
  induction l with
  | nil => simp
  | cons m l ih =>
    rw [List.map_cons, List.sum_cons, ih, List.countP_cons]
    by_cases h : q m <;> simp [h] <;> omega

/-- Field projections of a summed contribution list. -/
theorem sumAggDelta_fields (ds : List AggDelta) :
    (sumAggDelta ds).matches_played = (ds.map AggDelta.matches_played).sum ∧
    (sumAggDelta ds).match_wins = (ds.map AggDelta.match_wins).sum ∧
    (sumAggDelta ds).match_losses = (ds.map AggDelta.match_losses).sum ∧
    (sumAggDelta ds).map_wins = (ds.map AggDelta.map_wins).sum ∧
    (sumAggDelta ds).map_losses = (ds.map AggDelta.map_losses).sum := by
  induction ds with
  | nil => simp [sumAggDelta, AggDelta.zero]
  | cons d ds ih =>
    simp only [sumAggDelta, List.foldr_cons, List.map_cons, List.sum_cons] at *
    simp [AggDelta.add, ih]

/-- Winner of a fixture's statistics is a participant or `""`. -/
theorem compute_match_stats_winner_cases (results : Results) (m : Match) :
    (compute_match_stats results m).winner = m.A ∨
    (compute_match_stats results m).winner = m.B ∨
    (compute_match_stats results m).winner = "" := by
  rw [compute_match_stats_eq]
  exact resolveSlots_winner_cases _ _ _ _ _

/-- A fixture with no counted game resolves to no winner. -/
theorem compute_match_stats_zero_winner (results : Results) (m : Match)
    (h0 : (compute_match_stats results m).A_maps + (compute_match_stats results m).B_maps = 0) :
    (compute_match_stats results m).winner = "" := by
  rw [compute_match_stats_eq] at h0 ⊢
  exact resolveSlots_zero _ _ _ _ _ h0

/-- `match_wins` component of the contribution, in the counted case. -/
theorem aggDelta_match_wins (stats : Match → MatchStats) (p : String) (m : Match)
    (h0 : ¬(stats m).A_maps + (stats m).B_maps = 0) :
    (aggDelta stats p m).match_wins =
      if (stats m).winner = m.A then (if p = m.A then 1 else 0)
      else if (stats m).winner = m.B then (if p = m.B then 1 else 0) else 0 := by
  unfold aggDelta
  rw [if_neg h0]

/-- Map components of the contribution, in the counted case. -/
theorem aggDelta_map_fields (stats : Match → MatchStats) (p : String) (m : Match)
    (h0 : ¬(stats m).A_maps + (stats m).B_maps = 0) :
    (aggDelta stats p m).map_wins =
      (if p = m.A then (stats m).A_maps else 0) +
        (if p = m.B then (stats m).B_maps else 0) ∧
    (aggDelta stats p m).map_losses =
      (if p = m.A then (stats m).B_maps else 0) +
        (if p = m.B then (stats m).A_maps else 0) := by
  unfold aggDelta
  rw [if_neg h0]
  exact ⟨rfl, rfl⟩

/-- Over the whole roster, each fixture contributes exactly one match win
when it has a winner and none otherwise. -/
theorem sum_delta_match_wins (results : Results) (m : Match) (hm : m ∈ MATCHES) :
    (PLAYERS.map fun p => (aggDelta (compute_match_stats results) p m).match_wins).sum =
      if (compute_match_stats results m).winner = "" then 0 else 1 := by
  obtain ⟨hA, hB, hne, hA0, hB0⟩ := matches_participants m hm
  by_cases h0 : (compute_match_stats results m).A_maps +
      (compute_match_stats results m).B_maps = 0
  · rw [if_pos (compute_match_stats_zero_winner results m h0)]
    rw [List.map_congr_left (fun p _ => by
      rw [aggDelta, if_pos h0] : ∀ p ∈ PLAYERS,
        (aggDelta (compute_match_stats results) p m).match_wins = AggDelta.zero.match_wins)]
    simp [AggDelta.zero]
  · rcases compute_match_stats_winner_cases results m with hw | hw | hw
    · rw [List.map_congr_left (fun p _ => by
        rw [aggDelta_match_wins _ _ _ h0, if_pos hw] : ∀ p ∈ PLAYERS,
          (aggDelta (compute_match_stats results) p m).match_wins =
            if p = m.A then 1 else 0)]
      rw [sum_map_ite_one m.A 1 PLAYERS (by decide) hA, if_neg (by rw [hw]; exact hA0)]
    · rw [List.map_congr_left (fun p _ => by
        rw [aggDelta_match_wins _ _ _ h0, if_neg (by rw [hw]; exact Ne.symm hne),
          if_pos hw] : ∀ p ∈ PLAYERS,
          (aggDelta (compute_match_stats results) p m).match_wins =
            if p = m.B then 1 else 0)]
      rw [sum_map_ite_one m.B 1 PLAYERS (by decide) hB, if_neg (by rw [hw]; exact hB0)]
    · rw [List.map_congr_left (fun p _ => by
        rw [aggDelta_match_wins _ _ _ h0, if_neg (by rw [hw]; exact Ne.symm hA0),
          if_neg (by rw [hw]; exact Ne.symm hB0)] : ∀ p ∈ PLAYERS,
          (aggDelta (compute_match_stats results) p m).match_wins = 0)]
      simp [hw]

/-- Over the whole roster, each fixture contributes equal totals of map
wins and map losses. -/
theorem sum_delta_maps (results : Results) (m : Match) (hm : m ∈ MATCHES) :
    (PLAYERS.map fun p => (aggDelta (compute_match_stats results) p m).map_wins).sum =
      (PLAYERS.map fun p => (aggDelta (compute_match_stats results) p m).map_losses).sum := by
  obtain ⟨hA, hB, -, -, -⟩ := matches_participants m hm
  by_cases h0 : (compute_match_stats results m).A_maps +
      (compute_match_stats results m).B_maps = 0
  · rw [List.map_congr_left (fun p _ => by
      rw [aggDelta, if_pos h0] : ∀ p ∈ PLAYERS,
        (aggDelta (compute_match_stats results) p m).map_wins = AggDelta.zero.map_wins),
      List.map_congr_left (fun p _ => by
      rw [aggDelta, if_pos h0] : ∀ p ∈ PLAYERS,
        (aggDelta (compute_match_stats results) p m).map_losses = AggDelta.zero.map_losses)]
    rfl
  · rw [List.map_congr_left (fun p _ =>
        (aggDelta_map_fields (compute_match_stats results) p m h0).1 : ∀ p ∈ PLAYERS,
        (aggDelta (compute_match_stats results) p m).map_wins =
          (if p = m.A then (compute_match_stats results m).A_maps else 0) +
            (if p = m.B then (compute_match_stats results m).B_maps else 0)),
      List.map_congr_left (fun p _ =>
        (aggDelta_map_fields (compute_match_stats results) p m h0).2 : ∀ p ∈ PLAYERS,
        (aggDelta (compute_match_stats results) p m).map_losses =
          (if p = m.A then (compute_match_stats results m).B_maps else 0) +
            (if p = m.B then (compute_match_stats results m).A_maps else 0)),
      List.sum_map_add, List.sum_map_add,
      sum_map_ite_one m.A _ PLAYERS (by decide) hA,
      sum_map_ite_one m.B _ PLAYERS (by decide) hB,
      sum_map_ite_one m.A _ PLAYERS (by decide) hA,
      sum_map_ite_one m.B _ PLAYERS (by decide) hB]
    omega

/-- C7: in the output of `compute_standings`, total match wins equal the
number of configured matches with a non-none resolved winner, and total
map wins equal total map losses. -/
theorem c7_conservation (results : Results) :
    ((compute_standings results).map Row.match_wins).sum =
      MATCHES.countP (fun m => decide ((compute_match_stats results m).winner ≠ "")) ∧
    ((compute_standings results).map Row.map_wins).sum =
      ((compute_standings results).map Row.map_losses).sum := by
  have hperm := compute_standings_perm results
  have e1 : ∀ f : Row → Nat,
      ((compute_standings results).map f).sum = ((standings_table results).map f).sum :=
    fun f => (hperm.map f).sum_eq
  have e2w : (standings_table results).map Row.match_wins =
      PLAYERS.map fun p =>
        (compute_player_aggregate (compute_match_stats results) p).match_wins := by
    unfold standings_table
    rw [List.map_map]
    rfl
  have e2mw : (standings_table results).map Row.map_wins =
      PLAYERS.map fun p =>
        (compute_player_aggregate (compute_match_stats results) p).map_wins := by
    unfold standings_table
    rw [List.map_map]
    rfl
  have e2ml : (standings_table results).map Row.map_losses =
      PLAYERS.map fun p =>
        (compute_player_aggregate (compute_match_stats results) p).map_losses := by
    unfold standings_table
    rw [List.map_map]
    rfl
  have e3w : ∀ p ∈ PLAYERS,
      (compute_player_aggregate (compute_match_stats results) p).match_wins =
        (MATCHES.map fun m =>
          (aggDelta (compute_match_stats results) p m).match_wins).sum := by
    intro p _
    rw [compute_player_aggregate_eq]
    show (aggInit p).match_wins + (sumAggDelta _).match_wins = _
    rw [(sumAggDelta_fields _).2.1, List.map_map]
    simp [aggInit]
    rfl
  have e3mw : ∀ p ∈ PLAYERS,
      (compute_player_aggregate (compute_match_stats results) p).map_wins =
        (MATCHES.map fun m =>
          (aggDelta (compute_match_stats results) p m).map_wins).sum := by
    intro p _
    rw [compute_player_aggregate_eq]
    show (aggInit p).map_wins + (sumAggDelta _).map_wins = _
    rw [(sumAggDelta_fields _).2.2.2.1, List.map_map]
    simp [aggInit]
    rfl
  have e3ml : ∀ p ∈ PLAYERS,
      (compute_player_aggregate (compute_match_stats results) p).map_losses =
        (MATCHES.map fun m =>
          (aggDelta (compute_match_stats results) p m).map_losses).sum := by
    intro p _
    rw [compute_player_aggregate_eq]
    show (aggInit p).map_losses + (sumAggDelta _).map_losses = _
    rw [(sumAggDelta_fields _).2.2.2.2, List.map_map]
    simp [aggInit]
    rfl
  constructor
  · rw [e1 Row.match_wins, e2w, List.map_congr_left e3w,
      sum_swap (fun p m => (aggDelta (compute_match_stats results) p m).match_wins)
        MATCHES PLAYERS,
      List.map_congr_left (fun m hm => sum_delta_match_wins results m hm),
      List.map_congr_left (fun m _ => by
        by_cases h : (compute_match_stats results m).winner = "" <;> simp [h] :
        ∀ m ∈ MATCHES,
          (if (compute_match_stats results m).winner = "" then 0 else 1) =
            if (fun m => decide ((compute_match_stats results m).winner ≠ "")) m then 1
            else 0),
      sum_map_bool MATCHES (fun m => decide ((compute_match_stats results m).winner ≠ ""))]
  · rw [e1 Row.map_wins, e1 Row.map_losses, e2mw, e2ml,
      List.map_congr_left e3mw, List.map_congr_left e3ml,
      sum_swap (fun p m => (aggDelta (compute_match_stats results) p m).map_wins)
        MATCHES PLAYERS,
      sum_swap (fun p m => (aggDelta (compute_match_stats results) p m).map_losses)
        MATCHES PLAYERS,
      List.map_congr_left (fun m hm => sum_delta_maps results m hm)]

/-! ### Ordering of the standings -/

theorem lexLe_refl (x : Nat × Nat × Nat × Nat) : lexLe x x = true := by
  simp [lexLe]

theorem lexLe_trans {x y z : Nat × Nat × Nat × Nat}
    (h1 : lexLe x y = true) (h2 : lexLe y z = true) : lexLe x z = true := by
  simp only [lexLe, Bool.or_eq_true, Bool.and_eq_true, decide_eq_true_eq] at h1 h2 ⊢
  omega

theorem lexLe_total (x y : Nat × Nat × Nat × Nat) : lexLe x y || lexLe y x := by
  simp only [lexLe, Bool.or_eq_true, Bool.and_eq_true, decide_eq_true_eq]
  omega

theorem rowLeKey_trans (a b c : Row) (h1 : rowLeKey a b) (h2 : rowLeKey b c) :
    rowLeKey a c = true :=
  lexLe_trans h2 h1

theorem rowLeKey_total (a b : Row) : rowLeKey a b || rowLeKey b a :=
  lexLe_total (sortKey b) (sortKey a)

theorem rowLeName_trans (a b c : Row) (h1 : rowLeName a b) (h2 : rowLeName b c) :
    rowLeName a c = true := by
  rw [rowLeName, decide_eq_true_eq] at h1 h2 ⊢
  exact le_trans h1 h2

theorem rowLeName_total (a b : Row) : rowLeName a b || rowLeName b a := by
  rw [Bool.or_eq_true, rowLeName, rowLeName, decide_eq_true_eq, decide_eq_true_eq]
  exact le_total a.player b.player

/-- Two distinct members of a list occur in one of the two orders. -/
theorem two_mem_sublist {α : Type} (x y : α) :
    ∀ l : List α, x ∈ l → y ∈ l → x ≠ y → List.Sublist [x, y] l ∨ List.Sublist [y, x] l := by
  intro l
  induction l with
  | nil => intro hx _ _; cases hx
  | cons a t ih =>
    intro hx hy hne
    rcases List.mem_cons.mp hx with rfl | hx'
    · have hy' : y ∈ t := by
        rcases List.mem_cons.mp hy with h' | h'
        · exact absurd h'.symm hne
        · exact h'
      exact Or.inl (List.Sublist.cons₂ x (List.singleton_sublist.mpr hy'))
    · rcases List.mem_cons.mp hy with rfl | hy'
      · exact Or.inr (List.Sublist.cons₂ y (List.singleton_sublist.mpr hx'))
      · rcases ih hx' hy' hne with h | h
        · exact Or.inl (h.cons a)
        · exact Or.inr (h.cons a)

/-- In a duplicate-free list, a pair cannot occur in both orders. -/
theorem sublist_pair_antisymm {α : Type} :
    ∀ l : List α, l.Nodup → ∀ x y : α, List.Sublist [x, y] l → List.Sublist [y, x] l → x = y := by
  intro l
  induction l with
  | nil => intro _ x y h _; cases h
  | cons a t ih =>
    intro hnd x y hxy hyx
    obtain ⟨ha, hnd'⟩ := List.nodup_cons.mp hnd
    cases hxy with
    | cons _ h1 =>
      cases hyx with
      | cons _ h2 => exact ih hnd' x y h1 h2
      | cons₂ _ h2 => exact absurd (h1.subset (by simp)) ha
    | cons₂ _ h1 =>
      cases hyx with
      | cons _ h2 => exact absurd (h2.subset (by simp)) ha
      | cons₂ _ h2 => rfl

/-- The unsorted table has pairwise-distinct rows. -/
theorem standings_table_nodup (results : Results) :
    (standings_table results).Nodup :=
  List.Nodup.of_map Row.player (by rw [standings_table_players]; decide)

/-- The sorted standings have pairwise-distinct rows. -/
theorem compute_standings_nodup (results : Results) :
    (compute_standings results).Nodup :=
  (compute_standings_perm results).symm.nodup (standings_table_nodup results)

/-- C2: the standings list is the table reordered (a permutation), it is
sorted so that each row's key tuple
`(match_wins, mini_match_wins, mini_map_wins, map_wins)` is
lexicographically at least every later row's, and rows with identical key
tuples appear in ascending player-identifier order — i.e. the output is
as if the rows were sorted ascending by player and then stable-sorted
descending by the key tuple. -/
theorem c2_standings_order (results : Results) :
    (compute_standings results).Perm (standings_table results) ∧
    (compute_standings results).Pairwise (fun r s =>
      lexLe (sortKey s) (sortKey r) = true ∧
      (sortKey r = sortKey s → r.player ≤ s.player)) := by
  refine ⟨compute_standings_perm results, ?_⟩
  have hkey : (compute_standings results).Pairwise (fun r s => rowLeKey r s = true) :=
    List.sorted_mergeSort rowLeKey_trans rowLeKey_total
      ((standings_table results).mergeSort rowLeName)
  have htie : (compute_standings results).Pairwise (fun r s =>
      sortKey r = sortKey s → r.player ≤ s.player) := by
    rw [List.pairwise_iff_forall_sublist]
    intro r s hsub hkeq
    by_contra hnle
    rw [not_le] at hnle
    have hne : r ≠ s := by
      intro he
      rw [he] at hnle
      exact lt_irrefl _ hnle
    have hrmem : r ∈ (standings_table results).mergeSort rowLeName :=
      List.mem_mergeSort.mp (hsub.subset (by simp))
    have hsmem : s ∈ (standings_table results).mergeSort rowLeName :=
      List.mem_mergeSort.mp (hsub.subset (by simp))
    have ht1sorted :
        ((standings_table results).mergeSort rowLeName).Pairwise
          (fun a b => rowLeName a b = true) :=
      List.sorted_mergeSort rowLeName_trans rowLeName_total (standings_table results)
    rcases two_mem_sublist r s _ hrmem hsmem hne with h12 | h21
    · have hrs := List.pairwise_iff_forall_sublist.mp ht1sorted h12
      rw [rowLeName, decide_eq_true_eq] at hrs
      exact absurd hrs (not_le.mpr hnle)
    · have hle : rowLeKey s r = true := by
        show lexLe (sortKey r) (sortKey s) = true
        rw [hkeq]
        exact lexLe_refl _
      have hsub2 : List.Sublist [s, r] (compute_standings results) :=
        List.pair_sublist_mergeSort rowLeKey_trans rowLeKey_total hle h21
      exact hne (sublist_pair_antisymm _ (compute_standings_nodup results) r s hsub hsub2)
  exact (hkey.and htie).imp fun h => ⟨h.1, h.2⟩
